import Mathlib

/-!
# Verification of the Kiro MCP Manager configuration pipeline

Shallow embedding of the configuration-management core of the
`stormlrd/kiro-mcp-manager` extension: the recommendation validation and
loading pipeline (`src/serverLoader.ts`), the group-load / toggle /
environment-variable-merge operations (`src/extension.ts`), and the agent
hook initializer (`hookManager`, `HookManager.ensureHook`).

JSON objects are modelled as association lists with string keys (own keys
only; JSON-parsed objects have unique keys).  File-system effects are made
explicit: the on-disk workspace MCP configuration document is a value of
type `McpConfig` threaded through the operations, and each write attempt is
driven by a `SaveSpec` oracle describing whether the directory creation and
the file write succeed, and what content a failed write leaves behind.
-/

/-- A catalog / configuration server definition (`McpServer` in both
`serverLoader.ts` and `extension.ts`).  All fields are optional in the
TypeScript interface. -/
structure McpServer where
  command : Option String := none
  args : Option (List String) := none
  env : Option (List (String × String)) := none
  description : Option String := none
  tags : Option (List String) := none
  httpUrl : Option String := none
  headers : Option (List (String × String)) := none
deriving DecidableEq, Repr

/-- The workspace MCP configuration document
(`McpConfig`: `{ mcpServers: Record<string, McpServer> }`). -/
structure McpConfig where
  mcpServers : List (String × McpServer)
deriving DecidableEq, Repr

/-- A server recommendation record from the (untrusted) agent output.
`none` in a field models a missing or non-string JSON value, so that the
structural filter of `loadRecommendedServers` can be stated faithfully. -/
structure ServerRecommendation where
  serverId : Option String
  reason : Option String
deriving DecidableEq, Repr

/-- First-match lookup in an association list: `obj[k]` restricted to own
keys of a JSON-parsed object. -/
def lookupKey {α : Type} (l : List (String × α)) (k : String) : Option α :=
  (l.find? (fun kv => kv.1 = k)).map Prod.snd

/-- Key assignment `obj[k] = v` on a JS object: replaces the value in place
when the key exists, appends the key otherwise. -/
def insertServer (l : List (String × McpServer)) (k : String) (v : McpServer) :
    List (String × McpServer) :=
  if l.any (fun kv => kv.1 = k) then
    l.map (fun kv => if kv.1 = k then (k, v) else kv)
  else
    l ++ [(k, v)]

/-- Own keys of the document, in order. -/
def configKeys (c : McpConfig) : List String :=
  c.mcpServers.map Prod.fst

/-- JavaScript `String.prototype.trim`, on the character list of the
string (the core-library string primitives do not reduce inside `decide`,
so the few string operations the code needs are spelled out on `.data`). -/
def jsTrim (s : String) : String :=
  String.mk (((s.data.dropWhile Char.isWhitespace).reverse.dropWhile
    Char.isWhitespace).reverse)

/-- `defaultValue.replace(/^Default:\s*/, '')`: strips a leading
`Default:` label together with the whitespace that follows it. -/
def dropDefaultLabel (s : String) : String :=
  if s.data.take 8 = "Default:".data then
    String.mk ((s.data.drop 8).dropWhile Char.isWhitespace)
  else s

/-- `.replace(/\r$/, '')`: removes one trailing carriage return, if any. -/
def dropOneTrailingCR (s : String) : String :=
  if s.data.getLast? = some '\r' then String.mk s.data.dropLast else s

/-- The catalog-default clean-up performed by both merge functions:
`defaultValue.replace(/^Default:\s*/, '').replace(/\r$/, '')`. -/
def cleanDefaultValue (s : String) : String :=
  dropOneTrailingCR (dropDefaultLabel s)

/-- Modelled from the spec (for refinement comparison only): the clean-up
as the specification words it, with the `"Default: "` prefix removed and
ALL trailing carriage-return characters removed. -/
def cleanDefaultValueSpec (s : String) : String :=
  String.mk ((((if s.data.take 9 = "Default: ".data then s.data.drop 9 else
    s.data).reverse.dropWhile (fun c => c = '\r')).reverse))

namespace ServerLoader

/-- `ServerLoader.mergeEnvironmentVariables` (serverLoader.ts, lines
622-679).  A server without declared `env` keys is returned unchanged; an
empty-string key is skipped by the `!key` guard, leaving the copied raw
default; otherwise a non-blank workspace value wins, else the cleaned
catalog default is used.  (The non-string branches of the dynamic checks
cannot arise in this typed model.) -/
def mergeEnvironmentVariables (server : McpServer) (envVars : List (String × String)) :
    McpServer :=
  match server.env with
  | none => server
  | some envList =>
    if envList.isEmpty then server
    else
      let mergedEnv := envList.map (fun kv =>
        if kv.1 = "" then kv
        else
          match lookupKey envVars kv.1 with
          | some v => if v ≠ "" ∧ jsTrim v ≠ "" then (kv.1, v) else (kv.1, cleanDefaultValue kv.2)
          | none => (kv.1, cleanDefaultValue kv.2))
      { server with env := some mergedEnv }

end ServerLoader

/-- Lookup of a declared environment variable in a server definition. -/
def lookupEnvOfServer (s : McpServer) (k : String) : Option String :=
  match s.env with
  | some l => lookupKey l k
  | none => none

namespace Extension

/-- `mergeEnvironmentVariables` (extension.ts, lines 549-568): same merge
as the ServerLoader variant but with no empty-key guard. -/
def mergeEnvironmentVariables (server : McpServer) (envVars : List (String × String)) :
    McpServer :=
  match server.env with
  | none => server
  | some envList =>
    if envList.isEmpty then server
    else
      let mergedEnv := envList.map (fun kv =>
        match lookupKey envVars kv.1 with
        | some v => if v ≠ "" ∧ jsTrim v ≠ "" then (kv.1, v) else (kv.1, cleanDefaultValue kv.2)
        | none => (kv.1, cleanDefaultValue kv.2))
      { server with env := some mergedEnv }

end Extension

-- sanity examples for the string clean-up
example : cleanDefaultValue "Default: abc\r" = "abc" := by decide
example : cleanDefaultValue "v\r\r" = "v\r" := by decide
example : cleanDefaultValueSpec "v\r\r" = "v" := by decide

/-! ## The config writer, as an explicit file-system interaction

`saveWorkspaceMcpConfig` performs directory creation, a full-overwrite
file write, and a warn-only read-back verification.  The outcomes of the
two fallible I/O steps and the content the read-back parses are supplied
by a `SaveSpec` oracle; a failed write may leave arbitrary content behind
(e.g. a truncated file), which `WriteOutcome.fail` records. -/

/-- Outcome of the `fs.promises.writeFile` call: success, or failure
leaving the on-disk document in the recorded state. -/
inductive WriteOutcome
  | ok
  | fail (left : McpConfig)
deriving DecidableEq, Repr

/-- Oracle for one `saveWorkspaceMcpConfig` call: whether `mkdir`
succeeds, how the write goes, and what the post-write read-back parses to
(`none` models unreadable/unparseable content or a missing `mcpServers`
object). -/
structure SaveSpec where
  mkdirOk : Bool
  writeOutcome : WriteOutcome
  readBack : Option McpConfig
deriving DecidableEq, Repr

/-- Whether a save driven by this oracle succeeds (reaches the end of the
write without throwing; the verification step never throws). -/
def saveSucceeds (fx : SaveSpec) : Bool :=
  fx.mkdirOk && (match fx.writeOutcome with | .ok => true | .fail _ => false)

/-- Result of a save: the document now on disk, whether the save reported
success, and whether the read-back verification flagged a mismatch. -/
structure SaveResult where
  disk : McpConfig
  ok : Bool
  verifyWarn : Bool
deriving DecidableEq, Repr

/-- The post-write read-back mismatch detector (serverLoader.ts, lines
782-800): unparseable content / invalid structure (`none`), or a server
count differing from the configuration just written. -/
def verifyMismatch (config : McpConfig) (readBack : Option McpConfig) : Bool :=
  match readBack with
  | none => true
  | some rb => rb.mcpServers.length != config.mcpServers.length

namespace ServerLoader

/-- `ServerLoader.saveWorkspaceMcpConfig` (serverLoader.ts, lines
724-807): ensure the settings directory exists, overwrite `mcp.json`, then
re-read and verify; a verification mismatch is only logged (the
`verifyError` catch does not rethrow), so it never fails the save. -/
def saveWorkspaceMcpConfig (config : McpConfig) (disk : McpConfig) (fx : SaveSpec) :
    SaveResult :=
  if fx.mkdirOk = false then ⟨disk, false, false⟩
  else
    match fx.writeOutcome with
    | .fail left => ⟨left, false, false⟩
    | .ok => ⟨config, true, verifyMismatch config fx.readBack⟩

/-- The per-record structural filter of `loadRecommendedServers`
(serverLoader.ts, lines 66-80): the record must be an object with a
non-empty, non-blank string `serverId` and a non-empty string `reason`. -/
def recWellFormed (r : ServerRecommendation) : Bool :=
  match r.serverId, r.reason with
  | some s, some t => s ≠ "" && jsTrim s ≠ "" && t ≠ ""
  | _, _ => false

/-- The structurally valid recommendations, in order (`recommendations
.filter(...)`); a `none` entry models a `null` / non-object array
element. -/
def validRecommendations (recs : List (Option ServerRecommendation)) :
    List ServerRecommendation :=
  recs.filterMap (fun r? => r?.bind (fun r => if recWellFormed r then some r else none))

/-- `ServerLoader.validateServerIds` (serverLoader.ts, lines 223-270):
keeps the IDs that are non-empty, non-blank strings and present as keys of
the master-server catalog (invalid ones are only logged). -/
def validateServerIds (serverIds : List String)
    (masterServers : List (String × McpServer)) : List String :=
  serverIds.filter (fun id =>
    id ≠ "" && jsTrim id ≠ "" && (lookupKey masterServers id).isSome)

/-- The per-server build loop shared by `loadRecommendedServers`
(serverLoader.ts, lines 151-175) and `loadServerGroup` (extension.ts,
lines 607-620): for each ID found in the catalog, insert the merged
definition; an ID the catalog lookup misses is skipped. -/
def buildConfigFromIds (ids : List String) (masterServers : List (String × McpServer))
    (mergeFn : McpServer → McpServer) : List (String × McpServer) :=
  ids.foldl (fun acc serverId =>
    match lookupKey masterServers serverId with
    | some server => insertServer acc serverId (mergeFn server)
    | none => acc) []

/-- The user-visible outcome of one recommendation-load attempt. -/
inductive LoadOutcome
  | infoNoRecommendations
  | errAllInvalid
  | errCatalog
  | warnNoValidIds
  | errConfigFailed
  | errWriteFailed
  | success
deriving DecidableEq, Repr

/-- Whether the outcome is a failure (an error or warning notification);
the empty-input outcome is informational and a successful load is not a
failure. -/
def isFailureOutcome : LoadOutcome → Bool
  | .infoNoRecommendations => false
  | .success => false
  | _ => true

/-- Result of one `loadRecommendedServers` call: the document on disk
afterwards, the document the call committed (`none` when no write
happened or the write failed), the returned count, and the outcome. -/
structure LoadResult where
  finalDisk : McpConfig
  written : Option McpConfig
  count : Nat
  outcome : LoadOutcome
deriving DecidableEq, Repr

/-- `ServerLoader.loadRecommendedServers` (serverLoader.ts, lines 34-215).
Parameters: the recommendation array; the result of `loadMasterServers`
(`none` models a load/parse failure); the workspace environment variables
(the env-vars document degrades to an empty mapping on failure, which the
caller models by passing `[]`); the prior on-disk configuration document
`disk` (which `loadWorkspaceMcpConfig` reads as the rollback snapshot);
and the two save oracles, for the write and for the rollback write.  The
`null`/non-array parameter guards of lines 47-57 cannot arise in this
typed model. -/
def loadRecommendedServers (recs : List (Option ServerRecommendation))
    (masterLoad : Option (List (String × McpServer)))
    (envVars : List (String × String)) (disk : McpConfig)
    (saveFx rollbackFx : SaveSpec) : LoadResult :=
  if recs.isEmpty then ⟨disk, none, 0, .infoNoRecommendations⟩
  else
    let validRecs := validRecommendations recs
    if validRecs.isEmpty then ⟨disk, none, 0, .errAllInvalid⟩
    else
      match masterLoad with
      | none => ⟨disk, none, 0, .errCatalog⟩
      | some masterServers =>
        if masterServers.isEmpty then ⟨disk, none, 0, .errCatalog⟩
        else
          let serverIds := validRecs.map (fun r => r.serverId.getD "")
          let validServerIds := validateServerIds serverIds masterServers
          if validServerIds.isEmpty then ⟨disk, none, 0, .warnNoValidIds⟩
          else
            let newConfig : McpConfig :=
              ⟨buildConfigFromIds validServerIds masterServers
                (fun s => mergeEnvironmentVariables s envVars)⟩
            if newConfig.mcpServers.isEmpty then ⟨disk, none, 0, .errConfigFailed⟩
            else
              -- originalConfig := loadWorkspaceMcpConfig() = the prior disk
              let r1 := saveWorkspaceMcpConfig newConfig disk saveFx
              if r1.ok then
                ⟨r1.disk, some newConfig, validServerIds.length, .success⟩
              else
                let r2 := saveWorkspaceMcpConfig disk r1.disk rollbackFx
                ⟨r2.disk, none, 0, .errWriteFailed⟩

/-- The set (list, possibly with repeats) of server IDs that survive the
structural filter and the catalog check of one pipeline run — the IDs the
pipeline will write. -/
def pipelineValidIds (recs : List (Option ServerRecommendation))
    (masterLoad : Option (List (String × McpServer))) : List String :=
  match masterLoad with
  | none => []
  | some masterServers =>
    if masterServers.isEmpty then []
    else
      validateServerIds ((validRecommendations recs).map (fun r => r.serverId.getD ""))
        masterServers

end ServerLoader

/-- A named group of catalog server IDs (`ServerGroup` in extension.ts). -/
structure ServerGroup where
  name : String
  description : String
  servers : List String
  icon : String
deriving DecidableEq, Repr

namespace Extension

/-- `saveWorkspaceMcpConfig` (extension.ts, lines 588-605): a successful
save fully overwrites the on-disk document with the new configuration. -/
def saveWorkspaceMcpConfig (config : McpConfig) (_disk : McpConfig) : McpConfig :=
  config

/-- `loadServerGroup` (extension.ts, lines 607-620): build a fresh
configuration from the group's server list against the catalog and the
current environment variables.  The prior configuration is never read. -/
def loadServerGroup (group : ServerGroup) (masterServers : List (String × McpServer))
    (envVars : List (String × String)) : McpConfig :=
  ⟨ServerLoader.buildConfigFromIds group.servers masterServers
    (fun s => mergeEnvironmentVariables s envVars)⟩

/-- The group-load operation on the on-disk document: build the fresh
configuration and save it with full-overwrite semantics. -/
def loadServerGroupOp (disk : McpConfig) (group : ServerGroup)
    (masterServers : List (String × McpServer)) (envVars : List (String × String)) :
    McpConfig :=
  saveWorkspaceMcpConfig (loadServerGroup group masterServers envVars) disk

/-- `toggleServer` (extension.ts, lines 622-636): remove the server when
its key is present in the current configuration, otherwise add it with the
environment variables merged in; the result is saved over the document. -/
def toggleServer (serverId : String) (server : McpServer) (envVars : List (String × String))
    (currentConfig : McpConfig) : McpConfig :=
  if (lookupKey currentConfig.mcpServers serverId).isSome then
    ⟨currentConfig.mcpServers.filter (fun kv => kv.1 ≠ serverId)⟩
  else
    ⟨insertServer currentConfig.mcpServers serverId
      (mergeEnvironmentVariables server envVars)⟩

end Extension

/-! ## The hook configuration manager (`HookManager`) -/

/-- The `when` clause of a hook configuration document. -/
structure HookWhen where
  type : String
  patterns : List String
deriving DecidableEq, Repr

/-- The `then` clause of a hook configuration document (`then` is a Lean
keyword, hence the field names `whenClause`/`thenClause`). -/
structure HookThen where
  type : String
  prompt : String
deriving DecidableEq, Repr

/-- `KiroHookConfig` (hookManager source). -/
structure KiroHookConfig where
  enabled : Bool
  name : String
  description : String
  version : String
  whenClause : HookWhen
  thenClause : HookThen
deriving DecidableEq, Repr

namespace HookManager

/-- `HookManager.generatePrompt`: the fixed agent prompt embedded in the
generated hook document (text braces written with their escapes). -/
def generatePrompt : String :=
  "You are analyzing ALL design documents in this project to generate a COMPLETE MCP server configuration.\n\nCURRENT DESIGN FILE:\n\x7bFILE_CONTENT\x7d\n\nIMPORTANT INSTRUCTIONS:\n1. Search the workspace for ALL design.md files in .kiro/specs/*/design.md patterns\n2. Read EVERY design.md file you find to understand the complete project scope\n3. Read #[file:.kiro/settings/mcp.json] to see currently loaded MCP servers (if file exists)\n4. Read #[file:.kiro/mcp-servers-reference.json] to see all available MCP servers\n\nTASK:\n1. Analyze ALL design documents to identify:\n   - Technologies and frameworks mentioned (React, Vue, Python, Node.js, etc.)\n   - External services and APIs referenced (AWS, GitHub, Slack, etc.)\n   - Data storage requirements (PostgreSQL, MongoDB, Redis, etc.)\n   - Cloud platforms mentioned (AWS, Azure, GCP)\n   - Development tools needed (Git, Docker, testing frameworks)\n\n2. Review currently loaded servers from mcp.json (if it exists)\n\n3. Generate a COMPLETE configuration that includes:\n   - All currently loaded servers that are still relevant\n   - Any NEW servers needed based on all design documents\n   - Remove servers that are no longer needed for any design\n   - Include context7 mcp server if this projects design is using a programming langauge in it such as needing node or python etc   \n\n4. Return your recommendations in this format:\n\nHere is your COMPLETE MCP server configuration for this project (analyzed X design files, kept Y existing servers, added Z new servers):\n\n```json\n[\n  \x7b\n    \"serverId\": \"server-name\",\n    \"reason\": \"Brief explanation of why this server is relevant\"\n  \x7d\n]\n```\n\nTo load this configuration, copy the JSON array and run the command: \"MCP Manager: Load Recommended Servers\" from the command palette (CTRL+SHIFT+P).\n\nRULES:\n- Return a COMPLETE list including both existing and new servers\n- Only recommend servers that exist in mcp-servers-reference.json\n- Only recommend servers that are clearly relevant to at least one design\n- Provide specific reasons based on actual design content\n- If no servers are relevant, return an empty array: []\n- Prioritize servers that provide the most value across all designs\n- Base recommendations on actual content across ALL design documents\n- If mcp.json does not exist, generate a fresh configuration from scratch\n\nEXAMPLE OUTPUT:\nHere is your COMPLETE MCP server configuration for this project (analyzed 3 design files, kept 2 existing servers, added 1 new server):\n\n```json\n[\n  \x7b\"serverId\": \"github\", \"reason\": \"Existing - Project uses GitHub for version control across all features\"\x7d,\n  \x7b\"serverId\": \"postgres\", \"reason\": \"Existing - Database used in user-auth and data-sync designs\"\x7d,\n  \x7b\"serverId\": \"aws-kb-retrieval\", \"reason\": \"NEW - Added for AWS Lambda and DynamoDB mentioned in new serverless-api design\"\x7d\n]\n```"

/-- `HookManager.createHookConfig`: the fixed hook template (disabled by
default, user-triggered on design documents). -/
def createHookConfig : KiroHookConfig where
  enabled := false
  name := "MCP Server Recommendations for Project"
  description := "Analyzes all design documents in the project and generates a complete MCP server configuration based on technologies, services, and requirements across all specs. This hook is disabled by default - enable it in the Agent Hooks view to run manually."
  version := "1"
  whenClause := { type := "userTriggered", patterns := [".kiro/specs/*/design.md"] }
  thenClause := { type := "askAgent", prompt := generatePrompt }

/-- The valid trigger types accepted by `validateHookConfig`. -/
def validWhenTypes : List String :=
  ["fileCreated", "fileEdited", "fileSaved", "fileDeleted", "userTriggered"]

/-- `HookManager.validateHookConfig`: the shallow structural check of a
hook document (non-empty name/description/version, a known trigger type,
at least one pattern, an `askAgent` action with a non-blank prompt; the
non-string/non-boolean branches cannot arise in this typed model). -/
def validateHookConfig (config : KiroHookConfig) : Bool :=
  if config.name = "" || jsTrim config.name = "" then false
  else if config.description = "" then false
  else if config.version = "" then false
  else if config.whenClause.type = "" then false
  else if !(validWhenTypes.contains config.whenClause.type) then false
  else if config.whenClause.patterns.isEmpty then false
  else if config.thenClause.type = "" then false
  else if config.thenClause.type ≠ "askAgent" then false
  else if config.thenClause.prompt = "" || jsTrim config.thenClause.prompt = "" then false
  else true

/-- Workspace state tracked around `ensureHook`: the hook configuration
document (or `none` when absent) together with counters of the writes
`ensureHook` has performed to the hook document and of the catalog copies
to the workspace reference file. -/
structure HookState where
  hook : Option KiroHookConfig
  hookWrites : Nat
  referenceCopies : Nat
deriving DecidableEq, Repr

/-- `HookManager.ensureHook` (hookManager source, lines 31-114).  When the
hook document exists, only the shallow validation runs (its result is
logged, never acted on) and nothing is written.  When it is absent, the
catalog reference copy is made, the template is built and validated, and
the hook document is written — unless validation fails or the write fails
(`writeOk = false`), in which case the state keeps no hook.  The write
verification of `createHook` only logs, so it is not modelled. -/
def ensureHook (st : HookState) (writeOk : Bool) : HookState :=
  match st.hook with
  | some _ => st
  | none =>
    let st1 := { st with referenceCopies := st.referenceCopies + 1 }
    let cfg := createHookConfig
    if validateHookConfig cfg then
      if writeOk then { st1 with hook := some cfg, hookWrites := st1.hookWrites + 1 }
      else st1
    else st1

end HookManager

/-! ## Key-set lemmas for the association-list object model -/

theorem lookupKey_cons {α : Type} (a : String × α) (t : List (String × α)) (k : String) :
    lookupKey (a :: t) k = if a.1 = k then some a.2 else lookupKey t k := by
  by_cases h : a.1 = k
  · simp [lookupKey, List.find?_cons_of_pos, h]
  · simp [lookupKey, List.find?_cons_of_neg, h]

theorem lookupKey_isSome_iff {α : Type} (l : List (String × α)) (k : String) :
    (lookupKey l k).isSome = true ↔ k ∈ l.map Prod.fst := by
  induction l with
  | nil => simp [lookupKey]
  | cons a t ih =>
    rw [lookupKey_cons]
    by_cases h : a.1 = k
    · rw [if_pos h]
      simp [List.map_cons, List.mem_cons, h]
    · rw [if_neg h]
      simp only [List.map_cons, List.mem_cons]
      rw [ih]
      constructor
      · exact Or.inr
      · rintro (hk | hk)
        · exact absurd hk.symm h
        · exact hk

theorem mem_keys_insertServer (l : List (String × McpServer)) (id v k) :
    k ∈ (insertServer l id v).map Prod.fst ↔ k ∈ l.map Prod.fst ∨ k = id := by
  unfold insertServer
  by_cases h : l.any (fun kv => kv.1 = id) = true
  · rw [if_pos h]
    have hmem : id ∈ l.map Prod.fst := by
      rcases List.any_eq_true.mp h with ⟨kv, hkv, hp⟩
      exact List.mem_map.mpr ⟨kv, hkv, by simpa using hp⟩
    have hkeys : (l.map (fun kv => if kv.1 = id then (id, v) else kv)).map Prod.fst
        = l.map Prod.fst := by
      rw [List.map_map]
      refine List.map_congr_left (fun kv _ => ?_)
      by_cases h' : kv.1 = id <;> simp [h', Function.comp]
    rw [hkeys]
    constructor
    · exact Or.inl
    · rintro (hk | hk)
      · exact hk
      · exact hk ▸ hmem
  · rw [if_neg h]
    simp

theorem mem_keys_filterNe (l : List (String × McpServer)) (id k : String) :
    k ∈ (l.filter (fun kv => kv.1 ≠ id)).map Prod.fst ↔ k ∈ l.map Prod.fst ∧ k ≠ id := by
  induction l with
  | nil => simp
  | cons a t ih =>
    rw [List.filter_cons]
    by_cases h : a.1 = id
    · rw [if_neg (by simp [h])]
      rw [ih]
      simp only [List.map_cons, List.mem_cons]
      constructor
      · rintro ⟨hk, hne⟩; exact ⟨Or.inr hk, hne⟩
      · rintro ⟨hk | hk, hne⟩
        · exact absurd (hk.trans h) hne
        · exact ⟨hk, hne⟩
    · rw [if_pos (by simp [h])]
      simp only [List.map_cons, List.mem_cons]
      rw [ih]
      constructor
      · rintro (hk | ⟨hk, hne⟩)
        · exact ⟨Or.inl hk, fun he => h (by rw [← hk, he])⟩
        · exact ⟨Or.inr hk, hne⟩
      · rintro ⟨hk | hk, hne⟩
        · exact Or.inl hk
        · exact Or.inr ⟨hk, hne⟩

theorem mem_keys_buildFold (cat : List (String × McpServer)) (f : McpServer → McpServer)
    (ids : List String) :
    ∀ (acc : List (String × McpServer)) (k : String),
      k ∈ (ids.foldl (fun acc serverId =>
          match lookupKey cat serverId with
          | some server => insertServer acc serverId (f server)
          | none => acc) acc).map Prod.fst
        ↔ k ∈ acc.map Prod.fst ∨ (k ∈ ids ∧ (lookupKey cat k).isSome = true) := by
  induction ids with
  | nil => intro acc k; simp
  | cons id t ih =>
    intro acc k
    rw [List.foldl_cons, ih]
    cases hl : lookupKey cat id with
    | none =>
      have h1 : k = id → (lookupKey cat k).isSome = true → False := by
        intro he hs; rw [he, hl] at hs; simp at hs
      simp only [hl, List.mem_cons]
      tauto
    | some s =>
      have h1 : k = id → (lookupKey cat k).isSome = true := by
        intro he; rw [he, hl]; rfl
      simp only [hl, mem_keys_insertServer, List.mem_cons]
      tauto

theorem mem_keys_buildConfigFromIds (ids : List String) (cat : List (String × McpServer))
    (f : McpServer → McpServer) (k : String) :
    k ∈ (ServerLoader.buildConfigFromIds ids cat f).map Prod.fst ↔
      k ∈ ids ∧ (lookupKey cat k).isSome = true := by
  have := mem_keys_buildFold cat f ids [] k
  simpa [ServerLoader.buildConfigFromIds] using this

theorem mem_validateServerIds (ids : List String) (cat : List (String × McpServer))
    (k : String) :
    k ∈ ServerLoader.validateServerIds ids cat ↔
      k ∈ ids ∧ k ≠ "" ∧ jsTrim k ≠ "" ∧ (lookupKey cat k).isSome = true := by
  simp [ServerLoader.validateServerIds, List.mem_filter, and_assoc]

theorem save_ok_eq (c d : McpConfig) (fx : SaveSpec) :
    (ServerLoader.saveWorkspaceMcpConfig c d fx).ok = saveSucceeds fx := by
  unfold ServerLoader.saveWorkspaceMcpConfig saveSucceeds
  cases hm : fx.mkdirOk <;> cases hw : fx.writeOutcome <;> simp [hm, hw]

theorem save_of_succeeds (c d : McpConfig) (fx : SaveSpec) (h : saveSucceeds fx = true) :
    ServerLoader.saveWorkspaceMcpConfig c d fx = ⟨c, true, verifyMismatch c fx.readBack⟩ := by
  unfold saveSucceeds at h
  unfold ServerLoader.saveWorkspaceMcpConfig
  cases hm : fx.mkdirOk <;> rw [hm] at h
  · simp at h
  · cases hw : fx.writeOutcome <;> rw [hw] at h
    · simp
    · simp at h

/-! ## Pointwise view of the environment-variable merge -/

theorem lookupKey_map_keyed (l : List (String × String)) (g : String → String → String)
    (k : String) :
    lookupKey (l.map (fun kv => (kv.1, g kv.1 kv.2))) k = (lookupKey l k).map (g k) := by
  induction l with
  | nil => simp [lookupKey]
  | cons a t ih =>
    rw [List.map_cons, lookupKey_cons, lookupKey_cons]
    by_cases h : a.1 = k
    · rw [if_pos h, if_pos h, h]
      rfl
    · rw [if_neg h, if_neg h, ih]

/-- Per-key value of the ServerLoader merge: raw default for the empty key
(skipped by the `!key` guard), otherwise workspace-wins-else-cleaned-default. -/
def slResolveEnv (envVars : List (String × String)) (k d : String) : String :=
  if k = "" then d
  else match lookupKey envVars k with
    | some v => if v ≠ "" ∧ jsTrim v ≠ "" then v else cleanDefaultValue d
    | none => cleanDefaultValue d

/-- Per-key value of the extension merge (no empty-key guard). -/
def extResolveEnv (envVars : List (String × String)) (k d : String) : String :=
  match lookupKey envVars k with
  | some v => if v ≠ "" ∧ jsTrim v ≠ "" then v else cleanDefaultValue d
  | none => cleanDefaultValue d

theorem sl_merge_lambda_eq (envVars : List (String × String)) :
    (fun kv : String × String =>
      if kv.1 = "" then kv
      else
        match lookupKey envVars kv.1 with
        | some v => if v ≠ "" ∧ jsTrim v ≠ "" then (kv.1, v) else (kv.1, cleanDefaultValue kv.2)
        | none => (kv.1, cleanDefaultValue kv.2))
    = fun kv : String × String => (kv.1, slResolveEnv envVars kv.1 kv.2) := by
  funext kv
  unfold slResolveEnv
  by_cases h : kv.1 = ""
  · simp only [if_pos h]
  · cases hl : lookupKey envVars kv.1 with
    | none => simp [h, hl]
    | some v => by_cases hc : v ≠ "" ∧ jsTrim v ≠ "" <;> simp [h, hl, hc]

theorem ext_merge_lambda_eq (envVars : List (String × String)) :
    (fun kv : String × String =>
      match lookupKey envVars kv.1 with
      | some v => if v ≠ "" ∧ jsTrim v ≠ "" then (kv.1, v) else (kv.1, cleanDefaultValue kv.2)
      | none => (kv.1, cleanDefaultValue kv.2))
    = fun kv : String × String => (kv.1, extResolveEnv envVars kv.1 kv.2) := by
  funext kv
  unfold extResolveEnv
  cases hl : lookupKey envVars kv.1 with
  | none => simp [hl]
  | some v => by_cases hc : v ≠ "" ∧ jsTrim v ≠ "" <;> simp [hl, hc]

/-- Modelled from the claim's words: the workspace-provided value for a
key, kept only when it exists and is non-blank after trimming. -/
def workspaceValue (envVars : List (String × String)) (k : String) : Option String :=
  match lookupKey envVars k with
  | some v => if jsTrim v ≠ "" then some v else none
  | none => none

theorem extResolveEnv_eq_workspace (envVars : List (String × String)) (k d : String) :
    extResolveEnv envVars k d = (workspaceValue envVars k).getD (cleanDefaultValue d) := by
  unfold extResolveEnv workspaceValue
  cases hl : lookupKey envVars k with
  | none => rfl
  | some v =>
    by_cases hv : jsTrim v ≠ ""
    · have hv' : v ≠ "" := fun he => hv (by rw [he]; rfl)
      simp [hv, hv']
    · simp only [ne_eq, not_not] at hv
      simp [hv]

theorem slResolveEnv_eq (envVars : List (String × String)) (k d : String) :
    slResolveEnv envVars k d = if k = "" then d else extResolveEnv envVars k d := rfl

theorem sl_merged_env_lookup (server : McpServer) (envList envVars : List (String × String))
    (k : String) (henv : server.env = some envList) (hne : envList.isEmpty = false) :
    lookupEnvOfServer (ServerLoader.mergeEnvironmentVariables server envVars) k
      = (lookupKey envList k).map (slResolveEnv envVars k) := by
  unfold ServerLoader.mergeEnvironmentVariables
  simp only [henv, hne, Bool.false_eq_true, if_false]
  unfold lookupEnvOfServer
  simp only [sl_merge_lambda_eq envVars, lookupKey_map_keyed]

theorem ext_merged_env_lookup (server : McpServer) (envList envVars : List (String × String))
    (k : String) (henv : server.env = some envList) (hne : envList.isEmpty = false) :
    lookupEnvOfServer (Extension.mergeEnvironmentVariables server envVars) k
      = (lookupKey envList k).map (extResolveEnv envVars k) := by
  unfold Extension.mergeEnvironmentVariables
  simp only [henv, hne, Bool.false_eq_true, if_false]
  unfold lookupEnvOfServer
  simp only [ext_merge_lambda_eq envVars, lookupKey_map_keyed]

/-! ## Claim theorems -/

/-- **C3 (corrected), counterexample.** The claim states that the merged
value for a declared key with no usable workspace value is the catalog
default with trailing carriage-return characters removed.  For the default
`"v\r\r"` the code produces `"v\r"` — one carriage return survives — so
the merged value is not the claim's cleaned value `"v"`.  The same regex
is used by both merge variants. -/
theorem merge_trailing_cr_counterexample :
    lookupEnvOfServer
        (ServerLoader.mergeEnvironmentVariables
          { env := some [("K", "v\r\r")] } []) "K" = some "v\r" ∧
    lookupEnvOfServer
        (Extension.mergeEnvironmentVariables
          { env := some [("K", "v\r\r")] } []) "K" = some "v\r" ∧
    ¬ lookupEnvOfServer
        (ServerLoader.mergeEnvironmentVariables
          { env := some [("K", "v\r\r")] } []) "K"
      = some (cleanDefaultValueSpec "v\r\r") := by
  decide

/-- **C3 (amended).** For every server definition with declared
environment variables and every workspace mapping, the merged value of a
declared key is: the workspace value verbatim when it exists and is
non-blank after trimming, and otherwise the catalog default with the
leading `Default:` label (and the whitespace after it) removed and AT MOST
ONE trailing carriage-return character removed.  The ServerLoader variant
additionally leaves an empty-string key at its raw default; the extension
variant resolves every key. -/
theorem merge_resolves_declared_keys (server : McpServer)
    (envList envVars : List (String × String)) (k d : String)
    (henv : server.env = some envList) (hkd : lookupKey envList k = some d) :
    (k ≠ "" → lookupEnvOfServer (ServerLoader.mergeEnvironmentVariables server envVars) k
        = some ((workspaceValue envVars k).getD (cleanDefaultValue d))) ∧
    (k = "" → lookupEnvOfServer (ServerLoader.mergeEnvironmentVariables server envVars) k
        = some d) ∧
    lookupEnvOfServer (Extension.mergeEnvironmentVariables server envVars) k
        = some ((workspaceValue envVars k).getD (cleanDefaultValue d)) := by
  have hne : envList.isEmpty = false := by
    cases envList with
    | nil => simp [lookupKey] at hkd
    | cons a t => rfl
  have hsl := sl_merged_env_lookup server envList envVars k henv hne
  have hext := ext_merged_env_lookup server envList envVars k henv hne
  rw [hkd] at hsl hext
  refine ⟨fun hk => ?_, fun hk => ?_, ?_⟩
  · rw [hsl]
    simp only [Option.map_some']
    rw [slResolveEnv_eq, if_neg hk, extResolveEnv_eq_workspace]
  · rw [hsl]
    simp only [Option.map_some']
    rw [slResolveEnv_eq, if_pos hk]
  · rw [hext]
    simp only [Option.map_some']
    rw [extResolveEnv_eq_workspace]

/-- Witness for the amended C3 theorem: a server declaring `K` with
default `"Default: x"` and a workspace value `" val "` (non-blank after
trimming) receives the workspace value verbatim in both variants. -/
theorem merge_resolves_declared_keys_witness :
    lookupEnvOfServer
        (ServerLoader.mergeEnvironmentVariables
          { env := some [("K", "Default: x")] } [("K", " val ")]) "K" = some " val " ∧
    lookupEnvOfServer
        (Extension.mergeEnvironmentVariables
          { env := some [("K", "Default: x")] } [("K", " val ")]) "K" = some " val " := by
  have h := merge_resolves_declared_keys { env := some [("K", "Default: x")] }
    [("K", "Default: x")] [("K", " val ")] "K" "Default: x" rfl (by decide)
  refine ⟨?_, ?_⟩
  · rw [h.1 (by decide)]
    decide
  · rw [h.2.2]
    decide

/-- **C6 (confirmed).** Loading an empty recommendation list returns
immediately: the on-disk document is untouched, nothing is written, the
returned count is zero, and the outcome is the informational
"no MCP servers recommended" notification, which is not classified as a
failure. -/
theorem loadRecommendedServers_empty_input (masterLoad : Option (List (String × McpServer)))
    (envVars : List (String × String)) (disk : McpConfig) (saveFx rollbackFx : SaveSpec) :
    ServerLoader.loadRecommendedServers [] masterLoad envVars disk saveFx rollbackFx
        = ⟨disk, none, 0, .infoNoRecommendations⟩ ∧
    ServerLoader.isFailureOutcome .infoNoRecommendations = false := ⟨rfl, rfl⟩

/-- **C7 (confirmed).** A group load is a total replacement: whatever was
on disk before (including the result of a previous load of the same group
with other environment values), the document after the load is the fresh
build from the group's list, the catalog, and the environment values
current at that load; the operation does not depend on the prior disk
content. -/
theorem loadServerGroupOp_total_replacement (d1 d2 : McpConfig) (group : ServerGroup)
    (masterServers : List (String × McpServer)) (e1 e2 : List (String × String)) :
    Extension.loadServerGroupOp (Extension.loadServerGroupOp d1 group masterServers e1)
        group masterServers e2
      = Extension.loadServerGroup group masterServers e2 ∧
    Extension.loadServerGroupOp d1 group masterServers e2
      = Extension.loadServerGroupOp d2 group masterServers e2 := ⟨rfl, rfl⟩

/-- **C9 (confirmed).** When the write itself succeeded, a read-back
verification mismatch (unparseable content, invalid structure, or a
differing server count) leaves the save successful: the result reports
`ok` with the new document on disk, and the mismatch surfaces only as the
logged warning flag. -/
theorem save_verify_mismatch_is_warning_only (config disk : McpConfig) (fx : SaveSpec)
    (h1 : fx.mkdirOk = true) (h2 : fx.writeOutcome = .ok)
    (h3 : verifyMismatch config fx.readBack = true) :
    ServerLoader.saveWorkspaceMcpConfig config disk fx = ⟨config, true, true⟩ := by
  unfold ServerLoader.saveWorkspaceMcpConfig
  rw [h1, h2]
  simp [h3]

/-- Witness for C9: writing a one-server document while the read-back
parses to an empty document (count mismatch) still reports success. -/
theorem save_verify_mismatch_is_warning_only_witness :
    ServerLoader.saveWorkspaceMcpConfig ⟨[("a", {})]⟩ ⟨[]⟩
        ⟨true, .ok, some ⟨[]⟩⟩ = ⟨⟨[("a", {})]⟩, true, true⟩ :=
  save_verify_mismatch_is_warning_only ⟨[("a", {})]⟩ ⟨[]⟩ ⟨true, .ok, some ⟨[]⟩⟩
    rfl rfl (by decide)

/-- Shared branch analysis: a non-empty recommendation list with zero
surviving IDs never reaches the write step. -/
theorem load_no_survivors_aux (recs : List (Option ServerRecommendation))
    (masterLoad : Option (List (String × McpServer))) (envVars : List (String × String))
    (disk : McpConfig) (saveFx rollbackFx : SaveSpec)
    (h0 : recs ≠ []) (h : ServerLoader.pipelineValidIds recs masterLoad = []) :
    ServerLoader.isFailureOutcome
        (ServerLoader.loadRecommendedServers recs masterLoad envVars disk saveFx
          rollbackFx).outcome = true ∧
    (ServerLoader.loadRecommendedServers recs masterLoad envVars disk saveFx
        rollbackFx).written = none ∧
    (ServerLoader.loadRecommendedServers recs masterLoad envVars disk saveFx
        rollbackFx).finalDisk = disk := by
  have hre : recs.isEmpty = false := by
    cases recs with
    | nil => exact absurd rfl h0
    | cons a t => rfl
  unfold ServerLoader.loadRecommendedServers
  rw [hre]
  simp only [Bool.false_eq_true, if_false]
  split
  · exact ⟨rfl, rfl, rfl⟩
  next hvr =>
    split
    · exact ⟨rfl, rfl, rfl⟩
    next ms hml =>
      split
      · exact ⟨rfl, rfl, rfl⟩
      next hms =>
        split
        · exact ⟨rfl, rfl, rfl⟩
        next hV =>
          exfalso
          unfold ServerLoader.pipelineValidIds at h
          simp only [hms, Bool.false_eq_true, if_false] at h
          exact hV (by rw [h]; rfl)

/-- **C2 (corrected), counterexample.** The claim asserts that after every
recommendation load whose write step fails, the on-disk document equals
the prior document.  When the failed write leaves the file truncated and
the rollback write fails as well (e.g. the disk stays full), the document
is not restored: here the prior document holds server `b`, the load of
recommendation `a` fails at the write leaving an empty document, the
rollback write fails the same way, and the final document is empty. -/
theorem loadRecommendedServers_rollback_counterexample :
    (ServerLoader.loadRecommendedServers [some ⟨some "a", some "r"⟩]
        (some [("a", {})]) [] ⟨[("b", {})]⟩ ⟨true, .fail ⟨[]⟩, none⟩
        ⟨true, .fail ⟨[]⟩, none⟩).outcome = .errWriteFailed ∧
    (ServerLoader.loadRecommendedServers [some ⟨some "a", some "r"⟩]
        (some [("a", {})]) [] ⟨[("b", {})]⟩ ⟨true, .fail ⟨[]⟩, none⟩
        ⟨true, .fail ⟨[]⟩, none⟩).finalDisk ≠ ⟨[("b", {})]⟩ := by
  decide

/-- **C2 (amended).** If the write step of a recommendation load fails and
the rollback write succeeds, the document on disk after the failed attempt
equals the document that existed before the attempt (the snapshot read
before the write is restored); if the rollback write also fails, the
document may remain in the failed-write state. -/
theorem loadRecommendedServers_rollback (recs : List (Option ServerRecommendation))
    (masterLoad : Option (List (String × McpServer))) (envVars : List (String × String))
    (disk : McpConfig) (saveFx rollbackFx : SaveSpec)
    (h1 : saveSucceeds saveFx = false) (h2 : saveSucceeds rollbackFx = true) :
    (ServerLoader.loadRecommendedServers recs masterLoad envVars disk saveFx
        rollbackFx).finalDisk = disk := by
  cases masterLoad with
  | none =>
    by_cases hre : recs.isEmpty = true
    · simp [ServerLoader.loadRecommendedServers, hre]
    · by_cases hvr : (ServerLoader.validRecommendations recs).isEmpty = true <;>
        simp [ServerLoader.loadRecommendedServers, hre, hvr]
  | some ms =>
    by_cases hre : recs.isEmpty = true
    · simp [ServerLoader.loadRecommendedServers, hre]
    by_cases hvr : (ServerLoader.validRecommendations recs).isEmpty = true
    · simp [ServerLoader.loadRecommendedServers, hre, hvr]
    by_cases hms : ms.isEmpty = true
    · simp [ServerLoader.loadRecommendedServers, hre, hvr, hms]
    by_cases hV : (ServerLoader.validateServerIds
        ((ServerLoader.validRecommendations recs).map (fun r => r.serverId.getD ""))
        ms).isEmpty = true
    · simp [ServerLoader.loadRecommendedServers, hre, hvr, hms, hV]
    by_cases hNC : (ServerLoader.buildConfigFromIds
        (ServerLoader.validateServerIds
          ((ServerLoader.validRecommendations recs).map (fun r => r.serverId.getD "")) ms)
        ms (fun s => ServerLoader.mergeEnvironmentVariables s envVars)).isEmpty = true
    · simp [ServerLoader.loadRecommendedServers, hre, hvr, hms, hV, hNC]
    · have hok1 : ∀ c d : McpConfig,
          (ServerLoader.saveWorkspaceMcpConfig c d saveFx).ok = false := by
        intro c d; rw [save_ok_eq, h1]
      have hs2 : ∀ c d : McpConfig, ServerLoader.saveWorkspaceMcpConfig c d rollbackFx
          = ⟨c, true, verifyMismatch c rollbackFx.readBack⟩ :=
        fun c d => save_of_succeeds c d rollbackFx h2
      simp [ServerLoader.loadRecommendedServers, hre, hvr, hms, hV, hNC, hok1, hs2]

/-- Witness for the amended C2 theorem: prior document with server `b`,
load of recommendation `a` whose write fails cleanly and whose rollback
write succeeds; the final document is the prior one. -/
theorem loadRecommendedServers_rollback_witness :
    (ServerLoader.loadRecommendedServers [some ⟨some "a", some "r"⟩]
        (some [("a", {})]) [] ⟨[("b", {})]⟩ ⟨true, .fail ⟨[]⟩, none⟩
        ⟨true, .ok, none⟩).finalDisk = ⟨[("b", {})]⟩ :=
  loadRecommendedServers_rollback [some ⟨some "a", some "r"⟩] (some [("a", {})]) []
    ⟨[("b", {})]⟩ ⟨true, .fail ⟨[]⟩, none⟩ ⟨true, .ok, none⟩ rfl rfl

/-- **C5 (confirmed).** When a non-empty recommendation list yields zero
surviving servers (every record structurally invalid, catalog unavailable
or empty, or no recommended ID present in the catalog), the operation ends
in a failure outcome, commits no write, and leaves the on-disk document
unchanged. -/
theorem loadRecommendedServers_zero_survivors (recs : List (Option ServerRecommendation))
    (masterLoad : Option (List (String × McpServer))) (envVars : List (String × String))
    (disk : McpConfig) (saveFx rollbackFx : SaveSpec)
    (h0 : recs ≠ []) (h : ServerLoader.pipelineValidIds recs masterLoad = []) :
    ServerLoader.isFailureOutcome
        (ServerLoader.loadRecommendedServers recs masterLoad envVars disk saveFx
          rollbackFx).outcome = true ∧
    (ServerLoader.loadRecommendedServers recs masterLoad envVars disk saveFx
        rollbackFx).written = none ∧
    (ServerLoader.loadRecommendedServers recs masterLoad envVars disk saveFx
        rollbackFx).finalDisk = disk :=
  load_no_survivors_aux recs masterLoad envVars disk saveFx rollbackFx h0 h

/-- Witness for C5: a single recommendation for an ID absent from the
catalog survives the structural filter but not the catalog check; the
operation fails, writes nothing, and leaves the prior document intact. -/
theorem loadRecommendedServers_zero_survivors_witness :
    ServerLoader.isFailureOutcome
        (ServerLoader.loadRecommendedServers [some ⟨some "zzz", some "r"⟩]
          (some [("a", {})]) [] ⟨[("b", {})]⟩ ⟨true, .ok, none⟩
          ⟨true, .ok, none⟩).outcome = true ∧
    (ServerLoader.loadRecommendedServers [some ⟨some "zzz", some "r"⟩]
        (some [("a", {})]) [] ⟨[("b", {})]⟩ ⟨true, .ok, none⟩
        ⟨true, .ok, none⟩).written = none ∧
    (ServerLoader.loadRecommendedServers [some ⟨some "zzz", some "r"⟩]
        (some [("a", {})]) [] ⟨[("b", {})]⟩ ⟨true, .ok, none⟩
        ⟨true, .ok, none⟩).finalDisk = ⟨[("b", {})]⟩ :=
  loadRecommendedServers_zero_survivors [some ⟨some "zzz", some "r"⟩]
    (some [("a", {})]) [] ⟨[("b", {})]⟩ ⟨true, .ok, none⟩ ⟨true, .ok, none⟩
    (by decide) (by decide)

/-- Shared branch analysis: when the surviving-ID list is non-empty and
the write succeeds, the pipeline commits exactly the freshly built
configuration and reports success with the surviving count. -/
theorem load_success_aux (recs : List (Option ServerRecommendation))
    (ms : List (String × McpServer)) (envVars : List (String × String))
    (disk : McpConfig) (saveFx rollbackFx : SaveSpec)
    (hok : saveSucceeds saveFx = true) (hms : ms.isEmpty = false)
    (hV : ServerLoader.validateServerIds
        ((ServerLoader.validRecommendations recs).map (fun r => r.serverId.getD ""))
        ms ≠ []) :
    ServerLoader.loadRecommendedServers recs (some ms) envVars disk saveFx rollbackFx
      = ⟨⟨ServerLoader.buildConfigFromIds
            (ServerLoader.validateServerIds
              ((ServerLoader.validRecommendations recs).map (fun r => r.serverId.getD ""))
              ms) ms (fun s => ServerLoader.mergeEnvironmentVariables s envVars)⟩,
        some ⟨ServerLoader.buildConfigFromIds
            (ServerLoader.validateServerIds
              ((ServerLoader.validRecommendations recs).map (fun r => r.serverId.getD ""))
              ms) ms (fun s => ServerLoader.mergeEnvironmentVariables s envVars)⟩,
        (ServerLoader.validateServerIds
            ((ServerLoader.validRecommendations recs).map (fun r => r.serverId.getD ""))
            ms).length,
        .success⟩ := by
  have hvr' : ServerLoader.validRecommendations recs ≠ [] := by
    intro he; apply hV; rw [he]; rfl
  have hre : recs.isEmpty = false := by
    cases recs with
    | nil => exact absurd rfl hvr'
    | cons a t => rfl
  have hvr : (ServerLoader.validRecommendations recs).isEmpty = false := by
    cases hx : ServerLoader.validRecommendations recs with
    | nil => exact absurd hx hvr'
    | cons a t => rfl
  have hVe : (ServerLoader.validateServerIds
      ((ServerLoader.validRecommendations recs).map (fun r => r.serverId.getD ""))
      ms).isEmpty = false := by
    cases hx : ServerLoader.validateServerIds
        ((ServerLoader.validRecommendations recs).map (fun r => r.serverId.getD "")) ms with
    | nil => exact absurd hx hV
    | cons a t => rfl
  have hNC : (ServerLoader.buildConfigFromIds
      (ServerLoader.validateServerIds
        ((ServerLoader.validRecommendations recs).map (fun r => r.serverId.getD "")) ms)
      ms (fun s => ServerLoader.mergeEnvironmentVariables s envVars)).isEmpty = false := by
    obtain ⟨k, hk⟩ : ∃ k, k ∈ ServerLoader.validateServerIds
        ((ServerLoader.validRecommendations recs).map (fun r => r.serverId.getD "")) ms := by
      cases hx : ServerLoader.validateServerIds
          ((ServerLoader.validRecommendations recs).map (fun r => r.serverId.getD "")) ms with
      | nil => exact absurd hx hV
      | cons a t => exact ⟨a, List.mem_cons_self a t⟩
    have h1 := (mem_validateServerIds _ _ _).mp hk
    have h2 : k ∈ (ServerLoader.buildConfigFromIds
        (ServerLoader.validateServerIds
          ((ServerLoader.validRecommendations recs).map (fun r => r.serverId.getD "")) ms)
        ms (fun s => ServerLoader.mergeEnvironmentVariables s envVars)).map Prod.fst :=
      (mem_keys_buildConfigFromIds _ _ _ _).mpr ⟨hk, h1.2.2.2⟩
    cases hb : ServerLoader.buildConfigFromIds
        (ServerLoader.validateServerIds
          ((ServerLoader.validRecommendations recs).map (fun r => r.serverId.getD "")) ms)
        ms (fun s => ServerLoader.mergeEnvironmentVariables s envVars) with
    | nil => rw [hb] at h2; simp at h2
    | cons a t => rfl
  have hs1 : ∀ c d : McpConfig, ServerLoader.saveWorkspaceMcpConfig c d saveFx
      = ⟨c, true, verifyMismatch c saveFx.readBack⟩ :=
    fun c d => save_of_succeeds c d saveFx hok
  simp [ServerLoader.loadRecommendedServers, hre, hvr, hms, hVe, hNC, hs1]

/-- Modelled from the claim's words (for refutation): the serverIds the
claim says are written — recommended IDs that are well-formed (non-empty
strings) and present as keys in the catalog, with no condition on the
record's `reason` field. -/
def specClaimedIds (recs : List (Option ServerRecommendation))
    (catalog : List (String × McpServer)) : List String :=
  (recs.filterMap (fun r? => r?.bind (fun r => r.serverId))).filter
    (fun s => s ≠ "" && (lookupKey catalog s).isSome)

/-- **C1 (corrected), counterexample.** A record whose `serverId` is the
non-empty catalog key `"a"` but whose `reason` is missing is dropped by
the structural filter before the catalog check, so nothing is written
even though the claim's set contains `"a"`: the written key set is not the
set of well-formed, catalog-known serverIds. -/
theorem loadRecommendedServers_keyset_counterexample :
    "a" ∈ specClaimedIds [some ⟨some "a", none⟩] [("a", {})] ∧
    ¬ ("a" ∈ configKeys (ServerLoader.loadRecommendedServers [some ⟨some "a", none⟩]
        (some [("a", {})]) [] ⟨[]⟩ ⟨true, .ok, none⟩ ⟨true, .ok, none⟩).finalDisk ↔
      "a" ∈ specClaimedIds [some ⟨some "a", none⟩] [("a", {})]) := by
  decide

/-- **C1 (amended).** When the write succeeds, the set of keys of the
document that `loadRecommendedServers` writes is exactly the set of
recommended serverIds whose record is fully well-formed — `serverId` a
non-empty string that is non-blank after trimming AND `reason` a non-empty
string — and whose serverId is a key of the catalog at the time of the
call (the surviving IDs); when that set is empty, no write occurs and the
on-disk document is unchanged. -/
theorem loadRecommendedServers_writes_exact_keyset
    (recs : List (Option ServerRecommendation)) (masterServers : List (String × McpServer))
    (envVars : List (String × String)) (disk : McpConfig) (saveFx rollbackFx : SaveSpec)
    (hok : saveSucceeds saveFx = true) :
    (ServerLoader.pipelineValidIds recs (some masterServers) = [] →
      (ServerLoader.loadRecommendedServers recs (some masterServers) envVars disk saveFx
          rollbackFx).written = none ∧
      (ServerLoader.loadRecommendedServers recs (some masterServers) envVars disk saveFx
          rollbackFx).finalDisk = disk) ∧
    (ServerLoader.pipelineValidIds recs (some masterServers) ≠ [] →
      ∃ w, (ServerLoader.loadRecommendedServers recs (some masterServers) envVars disk saveFx
            rollbackFx).written = some w ∧
        (ServerLoader.loadRecommendedServers recs (some masterServers) envVars disk saveFx
            rollbackFx).finalDisk = w ∧
        ∀ k, (k ∈ configKeys w ↔
          k ∈ ServerLoader.pipelineValidIds recs (some masterServers))) := by
  constructor
  · intro h
    by_cases h0 : recs = []
    · subst h0; exact ⟨rfl, rfl⟩
    · have haux := load_no_survivors_aux recs (some masterServers) envVars disk saveFx
        rollbackFx h0 h
      exact ⟨haux.2.1, haux.2.2⟩
  · intro hne
    have hms : masterServers.isEmpty = false := by
      cases hx : masterServers.isEmpty with
      | true => exact absurd (by unfold ServerLoader.pipelineValidIds; simp [hx]) hne
      | false => rfl
    have hVne : ServerLoader.validateServerIds
        ((ServerLoader.validRecommendations recs).map (fun r => r.serverId.getD ""))
        masterServers ≠ [] := by
      intro he
      apply hne
      unfold ServerLoader.pipelineValidIds
      simp [hms, he]
    have hpv : ServerLoader.pipelineValidIds recs (some masterServers)
        = ServerLoader.validateServerIds
            ((ServerLoader.validRecommendations recs).map (fun r => r.serverId.getD ""))
            masterServers := by
      unfold ServerLoader.pipelineValidIds
      simp [hms]
    have hrun := load_success_aux recs masterServers envVars disk saveFx rollbackFx
      hok hms hVne
    refine ⟨⟨ServerLoader.buildConfigFromIds
        (ServerLoader.validateServerIds
          ((ServerLoader.validRecommendations recs).map (fun r => r.serverId.getD ""))
          masterServers) masterServers
        (fun s => ServerLoader.mergeEnvironmentVariables s envVars)⟩,
      by rw [hrun], by rw [hrun], ?_⟩
    intro k
    rw [hpv]
    unfold configKeys
    rw [mem_keys_buildConfigFromIds]
    constructor
    · exact fun hx => hx.1
    · intro hx
      exact ⟨hx, ((mem_validateServerIds _ _ _).mp hx).2.2.2⟩

/-- Witness for the amended C1 theorem: one fully well-formed
recommendation for catalog server `"a"` over a prior document holding
`"b"`, with a succeeding write: `"a"` is a key of the final document. -/
theorem loadRecommendedServers_writes_exact_keyset_witness :
    "a" ∈ configKeys (ServerLoader.loadRecommendedServers [some ⟨some "a", some "r"⟩]
        (some [("a", {})]) [] ⟨[("b", {})]⟩ ⟨true, .ok, none⟩
        ⟨true, .ok, none⟩).finalDisk := by
  obtain ⟨w, hw, hd, hk⟩ := (loadRecommendedServers_writes_exact_keyset
    [some ⟨some "a", some "r"⟩] [("a", {})] [] ⟨[("b", {})]⟩ ⟨true, .ok, none⟩
    ⟨true, .ok, none⟩ rfl).2 (by decide)
  rw [hd]
  exact (hk "a").mpr (by decide)

/-- Shared branch analysis: the only document the pipeline ever commits is
the configuration built from the surviving IDs against the catalog. -/
theorem load_written_aux (recs : List (Option ServerRecommendation))
    (ms : List (String × McpServer)) (envVars : List (String × String))
    (disk : McpConfig) (saveFx rollbackFx : SaveSpec) (w : McpConfig)
    (hw : (ServerLoader.loadRecommendedServers recs (some ms) envVars disk saveFx
        rollbackFx).written = some w) :
    w = ⟨ServerLoader.buildConfigFromIds
          (ServerLoader.validateServerIds
            ((ServerLoader.validRecommendations recs).map (fun r => r.serverId.getD ""))
            ms) ms (fun s => ServerLoader.mergeEnvironmentVariables s envVars)⟩ := by
  by_cases hre : recs.isEmpty = true
  · simp [ServerLoader.loadRecommendedServers, hre] at hw
  by_cases hvr : (ServerLoader.validRecommendations recs).isEmpty = true
  · simp [ServerLoader.loadRecommendedServers, hre, hvr] at hw
  by_cases hms : ms.isEmpty = true
  · simp [ServerLoader.loadRecommendedServers, hre, hvr, hms] at hw
  by_cases hV : (ServerLoader.validateServerIds
      ((ServerLoader.validRecommendations recs).map (fun r => r.serverId.getD ""))
      ms).isEmpty = true
  · simp [ServerLoader.loadRecommendedServers, hre, hvr, hms, hV] at hw
  by_cases hNC : (ServerLoader.buildConfigFromIds
      (ServerLoader.validateServerIds
        ((ServerLoader.validRecommendations recs).map (fun r => r.serverId.getD "")) ms)
      ms (fun s => ServerLoader.mergeEnvironmentVariables s envVars)).isEmpty = true
  · simp [ServerLoader.loadRecommendedServers, hre, hvr, hms, hV, hNC] at hw
  by_cases hr1 : (ServerLoader.saveWorkspaceMcpConfig
      ⟨ServerLoader.buildConfigFromIds
        (ServerLoader.validateServerIds
          ((ServerLoader.validRecommendations recs).map (fun r => r.serverId.getD "")) ms)
        ms (fun s => ServerLoader.mergeEnvironmentVariables s envVars)⟩ disk saveFx).ok = true
  · simp [ServerLoader.loadRecommendedServers, hre, hvr, hms, hV, hNC, hr1] at hw
    exact hw.symm
  · simp [ServerLoader.loadRecommendedServers, hre, hvr, hms, hV, hNC, hr1] at hw

/-- **C4 (confirmed).** Every key persisted by a configuration-mutating
operation corresponds to a serverId present in the catalog at write time:
the document a group load builds, and any document a recommendation load
commits, have all their keys among the catalog keys — stale or unknown IDs
are never persisted. -/
theorem persisted_keys_exist_in_catalog :
    (∀ (group : ServerGroup) (masterServers : List (String × McpServer))
        (envVars : List (String × String)) (k : String),
      k ∈ configKeys (Extension.loadServerGroup group masterServers envVars) →
      (lookupKey masterServers k).isSome = true) ∧
    (∀ (recs : List (Option ServerRecommendation))
        (masterServers : List (String × McpServer)) (envVars : List (String × String))
        (disk : McpConfig) (saveFx rollbackFx : SaveSpec) (w : McpConfig) (k : String),
      (ServerLoader.loadRecommendedServers recs (some masterServers) envVars disk saveFx
          rollbackFx).written = some w →
      k ∈ configKeys w → (lookupKey masterServers k).isSome = true) := by
  constructor
  · intro group masterServers envVars k hk
    unfold Extension.loadServerGroup configKeys at hk
    rw [mem_keys_buildConfigFromIds] at hk
    exact hk.2
  · intro recs masterServers envVars disk saveFx rollbackFx w k hw hk
    rw [load_written_aux recs masterServers envVars disk saveFx rollbackFx w hw] at hk
    unfold configKeys at hk
    rw [mem_keys_buildConfigFromIds] at hk
    exact hk.2

/-- Witness for C4: a group naming catalog server `"g"` and a
recommendation load committing catalog server `"a"`; both persisted keys
are catalog keys. -/
theorem persisted_keys_exist_in_catalog_witness :
    (lookupKey [(("g" : String), ({} : McpServer))] "g").isSome = true ∧
    (lookupKey [(("a" : String), ({} : McpServer))] "a").isSome = true :=
  ⟨persisted_keys_exist_in_catalog.1 ⟨"Core", "", ["g"], ""⟩ [("g", {})] [] "g" (by decide),
   persisted_keys_exist_in_catalog.2 [some ⟨some "a", some "r"⟩] [("a", {})] []
     ⟨[]⟩ ⟨true, .ok, none⟩ ⟨true, .ok, none⟩ ⟨[("a", {})]⟩ "a" (by decide) (by decide)⟩

set_option maxRecDepth 100000 in
/-- The generated hook template passes its own structural validation. -/
theorem validateHookConfig_createHookConfig :
    HookManager.validateHookConfig HookManager.createHookConfig = true := by
  decide

/-- **C8 (corrected), counterexample.** The claim says two consecutive
initializer calls with no intervening deletion result in exactly one write
of the hook document, for every state of the hook document.  Starting from
a state where the hook document already exists, two calls perform zero
writes, not one. -/
theorem ensureHook_twice_counterexample :
    (HookManager.ensureHook
        (HookManager.ensureHook ⟨some HookManager.createHookConfig, 0, 0⟩ true)
        true).hookWrites ≠ 1 := by
  intro h
  exact absurd h (by decide)

/-- **C8 (amended).** Calling the initializer when the hook document
exists performs no write (the state is untouched, so an existing hook is
never overwritten), and two consecutive calls with no intervening deletion
perform at most one write of the hook document — exactly one when the
document was initially absent and the write succeeds. -/
theorem ensureHook_idempotent (st : HookManager.HookState) (ok1 ok2 : Bool) :
    (HookManager.ensureHook (HookManager.ensureHook st ok1) ok2).hookWrites
        ≤ st.hookWrites + 1 ∧
    (st.hook = none → ok1 = true →
      (HookManager.ensureHook (HookManager.ensureHook st ok1) ok2).hookWrites
        = st.hookWrites + 1) ∧
    (∀ h, st.hook = some h →
      HookManager.ensureHook st ok1 = st ∧
      HookManager.ensureHook (HookManager.ensureHook st ok1) ok2 = st) := by
  have hv := validateHookConfig_createHookConfig
  cases hst : st.hook with
  | some cfg =>
    have hid : ∀ b, HookManager.ensureHook st b = st := by
      intro b
      unfold HookManager.ensureHook
      rw [hst]
    refine ⟨?_, ?_, ?_⟩
    · rw [hid, hid]
      exact Nat.le_succ _
    · intro hn
      exact Option.noConfusion hn
    · intro h _
      exact ⟨hid ok1, by rw [hid, hid]⟩
  | none =>
    have habsent : ∀ (s : HookManager.HookState), s.hook = none →
        HookManager.ensureHook s true
          = ⟨some HookManager.createHookConfig, s.hookWrites + 1, s.referenceCopies + 1⟩ := by
      intro s hs
      unfold HookManager.ensureHook
      rw [hs]
      simp [hv]
    have habsent' : ∀ (s : HookManager.HookState), s.hook = none →
        HookManager.ensureHook s false
          = ⟨none, s.hookWrites, s.referenceCopies + 1⟩ := by
      intro s hs
      unfold HookManager.ensureHook
      rw [hs]
      simp [hv]
    have hpresent : ∀ (s : HookManager.HookState) (c : KiroHookConfig) (b : Bool),
        s.hook = some c → HookManager.ensureHook s b = s := by
      intro s c b hs
      unfold HookManager.ensureHook
      rw [hs]
    cases ok1 with
    | true =>
      have h1 := habsent st hst
      have h2 : HookManager.ensureHook (HookManager.ensureHook st true) ok2
          = HookManager.ensureHook st true := by
        rw [h1]
        exact hpresent _ HookManager.createHookConfig ok2 rfl
      refine ⟨?_, ?_, ?_⟩
      · rw [h2, h1]
      · intro _ _
        rw [h2, h1]
      · intro h hsome
        exact Option.noConfusion hsome
    | false =>
      have h1 := habsent' st hst
      refine ⟨?_, ?_, ?_⟩
      · cases ok2 with
        | true =>
          rw [h1, habsent ⟨none, st.hookWrites, st.referenceCopies + 1⟩ rfl]
        | false =>
          rw [h1, habsent' ⟨none, st.hookWrites, st.referenceCopies + 1⟩ rfl]
          exact Nat.le_succ _
      · intro _ hfalse
        exact Bool.noConfusion hfalse
      · intro h hsome
        exact Option.noConfusion hsome

/-- Witness for the amended C8 theorem: from an absent hook document with
succeeding writes, two initializer calls perform exactly one write. -/
theorem ensureHook_idempotent_witness :
    (HookManager.ensureHook (HookManager.ensureHook ⟨none, 0, 0⟩ true) true).hookWrites
      = 0 + 1 :=
  (ensureHook_idempotent ⟨none, 0, 0⟩ true true).2.1 rfl rfl

/-- **C10 (confirmed).** Toggling the same serverId twice in a row (with
any environment values at each call) restores the original key set of the
configuration document, and a single toggle never adds or removes any key
other than the toggled serverId. -/
theorem toggleServer_twice_keyset (cfg : McpConfig) (serverId : String)
    (server : McpServer) (e1 e2 : List (String × String)) :
    (∀ k, k ∈ configKeys (Extension.toggleServer serverId server e2
        (Extension.toggleServer serverId server e1 cfg)) ↔ k ∈ configKeys cfg) ∧
    (∀ k, k ≠ serverId →
      (k ∈ configKeys (Extension.toggleServer serverId server e1 cfg)
        ↔ k ∈ configKeys cfg)) := by
  by_cases h : (lookupKey cfg.mcpServers serverId).isSome = true
  · have hc1 : Extension.toggleServer serverId server e1 cfg
        = ⟨cfg.mcpServers.filter (fun kv => kv.1 ≠ serverId)⟩ := by
      unfold Extension.toggleServer
      rw [if_pos h]
    have habs : (lookupKey (cfg.mcpServers.filter (fun kv => kv.1 ≠ serverId))
        serverId).isSome = false := by
      cases hx : (lookupKey (cfg.mcpServers.filter (fun kv => kv.1 ≠ serverId))
          serverId).isSome with
      | false => rfl
      | true =>
        exfalso
        have hm := (lookupKey_isSome_iff _ _).mp hx
        rw [mem_keys_filterNe] at hm
        exact hm.2 rfl
    have hc2 : Extension.toggleServer serverId server e2
        ⟨cfg.mcpServers.filter (fun kv => kv.1 ≠ serverId)⟩
        = ⟨insertServer (cfg.mcpServers.filter (fun kv => kv.1 ≠ serverId)) serverId
            (Extension.mergeEnvironmentVariables server e2)⟩ := by
      have hneg : ¬ ((lookupKey (cfg.mcpServers.filter (fun kv => kv.1 ≠ serverId))
          serverId).isSome = true) := by
        rw [habs]
        exact Bool.false_ne_true
      unfold Extension.toggleServer
      rw [if_neg hneg]
    have hmem : serverId ∈ cfg.mcpServers.map Prod.fst := (lookupKey_isSome_iff _ _).mp h
    constructor
    · intro k
      rw [hc1, hc2]
      unfold configKeys
      rw [mem_keys_insertServer, mem_keys_filterNe]
      constructor
      · rintro (⟨hk, _⟩ | hk)
        · exact hk
        · exact hk ▸ hmem
      · intro hk
        by_cases hks : k = serverId
        · exact Or.inr hks
        · exact Or.inl ⟨hk, hks⟩
    · intro k hk
      rw [hc1]
      unfold configKeys
      rw [mem_keys_filterNe]
      exact ⟨fun hx => hx.1, fun hx => ⟨hx, hk⟩⟩
  · have hc1 : Extension.toggleServer serverId server e1 cfg
        = ⟨insertServer cfg.mcpServers serverId
            (Extension.mergeEnvironmentVariables server e1)⟩ := by
      unfold Extension.toggleServer
      rw [if_neg h]
    have hsome2 : (lookupKey (insertServer cfg.mcpServers serverId
        (Extension.mergeEnvironmentVariables server e1)) serverId).isSome = true := by
      rw [lookupKey_isSome_iff, mem_keys_insertServer]
      exact Or.inr rfl
    have hc2 : Extension.toggleServer serverId server e2
        ⟨insertServer cfg.mcpServers serverId
          (Extension.mergeEnvironmentVariables server e1)⟩
        = ⟨(insertServer cfg.mcpServers serverId
            (Extension.mergeEnvironmentVariables server e1)).filter
              (fun kv => kv.1 ≠ serverId)⟩ := by
      unfold Extension.toggleServer
      rw [if_pos hsome2]
    have hnm : serverId ∉ cfg.mcpServers.map Prod.fst :=
      fun hm => h ((lookupKey_isSome_iff _ _).mpr hm)
    constructor
    · intro k
      rw [hc1, hc2]
      unfold configKeys
      rw [mem_keys_filterNe, mem_keys_insertServer]
      constructor
      · rintro ⟨hk | hk, hne⟩
        · exact hk
        · exact absurd hk hne
      · intro hk
        exact ⟨Or.inl hk, fun he => hnm (he ▸ hk)⟩
    · intro k hk
      rw [hc1]
      unfold configKeys
      rw [mem_keys_insertServer]
      constructor
      · rintro (hx | hx)
        · exact hx
        · exact absurd hx hk
      · exact Or.inl

/-- Witness for C10: toggling `"a"` twice on a document holding exactly
`"a"` leaves `"a"`'s membership unchanged, and a single toggle of `"a"`
does not affect the unrelated key `"b"`. -/
theorem toggleServer_twice_keyset_witness :
    ("a" ∈ configKeys (Extension.toggleServer "a" {} []
        (Extension.toggleServer "a" {} [] ⟨[("a", {})]⟩))
      ↔ "a" ∈ configKeys ⟨[("a", {})]⟩) ∧
    ("b" ∈ configKeys (Extension.toggleServer "a" {} [] ⟨[("a", {})]⟩)
      ↔ "b" ∈ configKeys ⟨[("a", {})]⟩) :=
  ⟨(toggleServer_twice_keyset ⟨[("a", {})]⟩ "a" {} [] []).1 "a",
   (toggleServer_twice_keyset ⟨[("a", {})]⟩ "a" {} [] []).2 "b" (by decide)⟩
